import Mathlib

/-!
Verification of the relationship-statistics engine of this repository
(`sample_account_analyzer.py`, `data_relationship_analyzer.py`,
`production_data_profiler.py`) against its natural-language specification.

The Python sources are shallowly embedded below.  Database access is
out of scope (the spec treats the query executor as an external
collaborator returning a mapping from owner key to raw count); SQL
`COUNT(*)` results are non-negative integers, so raw counts are `Nat`.
Python `float` arithmetic on percentages is modelled with exact `Rat`
arithmetic, and Python `round(x, 2)` with round-to-nearest at two
decimals (`round2` below).
-/

namespace AnalysisDb

/-! ### Count-distribution building

Embeds the per-key count list construction of
`sample_account_analyzer.analyze_account_person_counts` (lines 140-158)
and `analyze_list_membership` (lines 365-379):

    account_person_map = {row['account_id']: row['person_count'] for row in result}
    person_counts = []
    for aid in account_ids:
        count = account_person_map.get(aid, 0)
        person_counts.append(count)

The grouped-count dict is modelled as a partial map `Int → Option Nat`
(absent key = no row returned by the collaborator). -/

def buildCounts (keys : List Int) (raw : Int → Option Nat) : List Nat :=
  keys.map (fun k => (raw k).getD 0)

/-- Embeds `len([c for c in person_counts if c > 0])` (the
`accounts_with_persons` / `accounts_in_lists` field). -/
def withRelated (counts : List Nat) : Nat :=
  (counts.filter (fun c => decide (0 < c))).length

/-- Embeds `len([c for c in person_counts if c == 0])` (the
`accounts_without_persons` / `accounts_not_in_lists` field). -/
def withoutRelated (counts : List Nat) : Nat :=
  (counts.filter (fun c => decide (c = 0))).length

lemma withRelated_add_withoutRelated (counts : List Nat) :
    withRelated counts + withoutRelated counts = counts.length := by
  induction counts with
  | nil => simp [withRelated, withoutRelated]
  | cons c cs ih =>
      simp only [withRelated, withoutRelated, List.filter_cons] at *
      rcases Nat.eq_zero_or_pos c with hc | hc
      · subst hc; simp only [List.length_cons]; simp; omega
      · have h0 : ¬ c = 0 := Nat.pos_iff_ne_zero.mp hc
        simp [hc, h0] at *; omega

/-- C1: for every owner key list of size N and every raw-count mapping
(including partial and empty mappings), the per-key count distribution
has exactly N entries — one per owner key, `0` for keys absent from the
mapping — and the count of keys with count > 0 plus the count of keys
with count = 0 equals N. -/
theorem buildCounts_complete (keys : List Int) (raw : Int → Option Nat) :
    (buildCounts keys raw).length = keys.length ∧
    withRelated (buildCounts keys raw) + withoutRelated (buildCounts keys raw)
      = keys.length := by
  have hlen : (buildCounts keys raw).length = keys.length := by
    simp [buildCounts]
  exact ⟨hlen, by rw [withRelated_add_withoutRelated, hlen]⟩

/-! ### Sampling correction

`analyze_account_activity_counts` (lines 181-195) and
`analyze_person_activity_counts` (lines 255-268) correct a sampled
count by building the SQL expression

    COUNT(*) * {1.0/self.activity_sample_rate}

and then converting the returned decimal product with Python `int(...)`:

    account_activity_map = {row['account_id']: int(row['activity_count']) for row in result}

`invRate` below stands for the decimal literal `1.0/activity_sample_rate`
written into the query (a non-negative rational; e.g. `100` for the
default rate `0.01`, since the double `1.0/0.01` is exactly `100.0`,
and `5/2` for rate `0.4`, since `1.0/0.4` is exactly `2.5`).  The
product `raw_count * invRate` is non-negative, so `int(...)` is the
floor. -/

def correctCount (invRate : ℚ) (raw : Nat) : Nat :=
  (Int.floor ((raw : ℚ) * invRate)).toNat

/-- Modelled from the spec: the correction the spec claims — multiply by
`1/row_sample_rate` and round to the nearest integer with ties rounding
half up (`round(x) = ⌊x + 1/2⌋`). -/
def correctCountSpec (invRate : ℚ) (raw : Nat) : Nat :=
  (Int.floor ((raw : ℚ) * invRate + 1 / 2)).toNat

/-- C2 counterexample: for sampling rate `0.4` (whose inverse, the
double `1.0/0.4`, is exactly `5/2`) and raw count `1`, the code
truncates `1 * 2.5` to `2`, while rounding to the nearest integer with
ties half up gives `3`: the claimed rounding mode is not the one the
code uses. -/
theorem correctCount_not_round_half_up :
    correctCount (5 / 2) 1 = 2 ∧ correctCountSpec (5 / 2) 1 = 3 ∧
    correctCount (5 / 2) 1 ≠ correctCountSpec (5 / 2) 1 := by
  refine ⟨?_, ?_, ?_⟩ <;> norm_num [correctCount, correctCountSpec] <;> decide

/-- C2 amended: sampling correction multiplies the raw count by the
inverse sampling rate and truncates the product to an integer (the
floor, since the product is non-negative); in particular, for
`row_sample_rate = 0.01` and raw count `7` the corrected count is
`7 * 100 = 700` (the product is integral, so truncation and rounding
agree there). -/
theorem correctCount_truncates (invRate : ℚ) (raw : Nat) (h : 0 ≤ invRate) :
    (correctCount invRate raw : ℚ) ≤ (raw : ℚ) * invRate ∧
    (raw : ℚ) * invRate < (correctCount invRate raw : ℚ) + 1 ∧
    correctCount 100 7 = 700 := by
  have hnn : (0 : ℚ) ≤ (raw : ℚ) * invRate :=
    mul_nonneg (Nat.cast_nonneg raw) h
  have hfl : (0 : ℤ) ≤ Int.floor ((raw : ℚ) * invRate) :=
    Int.le_floor.mpr (by exact_mod_cast hnn)
  have hq : ((correctCount invRate raw : ℕ) : ℚ)
      = ((Int.floor ((raw : ℚ) * invRate) : ℤ) : ℚ) := by
    have ht := Int.toNat_of_nonneg hfl
    unfold correctCount
    exact_mod_cast congrArg (fun z : ℤ => (z : ℚ)) ht
  refine ⟨?_, ?_, ?_⟩
  · rw [hq]; exact Int.floor_le _
  · rw [hq]; exact Int.lt_floor_add_one _
  · norm_num [correctCount]; decide

/-- C2 amended, witness: the truncation bounds and the `0.01`-rate
instance evaluated at `invRate = 100`, `raw = 7`. -/
theorem correctCount_truncates_witness :
    (correctCount 100 7 : ℚ) ≤ (7 : ℚ) * 100 ∧
    (7 : ℚ) * 100 < (correctCount 100 7 : ℚ) + 1 ∧
    correctCount 100 7 = 700 := by
  have h := correctCount_truncates 100 7 (by norm_num)
  exact ⟨by exact_mod_cast h.1, by exact_mod_cast h.2.1, h.2.2⟩

/-! ### Bucketing

Embeds `sample_account_analyzer._create_buckets` (lines 397-420):

    buckets = {label: 0 for label in labels}
    for value in values:
        for (min_val, max_val), label in zip(ranges, labels):
            if min_val <= value <= max_val:
                buckets[label] += 1
                break
    total = len(values)
    return [{'range': label, 'count': count,
             'percentage': round(count * 100.0 / total, 2) if total > 0 else 0}
            for label, count in [(l, buckets[l]) for l in labels]]

A range upper bound of `float('inf')` is modelled as `none` (every
value satisfies `value <= inf`).  `round(x, 2)` is modelled as
round-to-nearest at two decimals over exact rationals. -/

structure BucketRange where
  lo : Nat
  hi : Option Nat
deriving DecidableEq, Repr

/-- Membership test `min_val <= value <= max_val` of the inner loop. -/
def inRange (r : BucketRange) (v : Nat) : Bool :=
  decide (r.lo ≤ v) &&
    (match r.hi with
     | none => true
     | some h => decide (v ≤ h))

/-- Label of the first `(range, label)` pair of `zip(ranges, labels)`
whose range contains `v`; `none` when no range matches (the inner loop
falls through without incrementing any bucket). -/
def firstMatchLabel : List (BucketRange × String) → Nat → Option String
  | [], _ => none
  | (r, l) :: rest, v =>
      if inRange r v then some l else firstMatchLabel rest v

/-- Final value of `buckets[l]` after the loop: the number of values
whose first matching pair carries label `l`. -/
def bucketMemberCount (pairs : List (BucketRange × String)) (values : List Nat)
    (l : String) : Nat :=
  (values.filter (fun v => decide (firstMatchLabel pairs v = some l))).length

/-- Python `round(x, 2)` over exact rationals: round `100 x` to the
nearest integer, back at scale `1/100`. -/
def round2 (q : ℚ) : ℚ :=
  ((round (q * 100) : ℤ) : ℚ) / 100

structure Bucket where
  range : String
  count : Nat
  percentage : ℚ
deriving DecidableEq, Repr

def createBuckets (values : List Nat) (ranges : List BucketRange)
    (labels : List String) : List Bucket :=
  labels.map (fun l =>
    { range := l
      count := bucketMemberCount (ranges.zip labels) values l
      percentage :=
        if 0 < values.length then
          round2 ((bucketMemberCount (ranges.zip labels) values l : ℚ)
            * 100 / (values.length : ℚ))
        else 0 })

lemma sum_map_add_nat {α : Type} (L : List α) (f g : α → Nat) :
    (L.map (fun a => f a + g a)).sum = (L.map f).sum + (L.map g).sum := by
  induction L with
  | nil => simp
  | cons a as ih => simp [ih]; omega

lemma sum_map_indicator (L : List String) (a : String) :
    (L.map (fun b => if a = b then 1 else 0)).sum = L.count a := by
  induction L with
  | nil => simp
  | cons b bs ih =>
      by_cases h : a = b
      · subst h
        simp [List.count_cons, ih, Nat.add_comm]
      · simp [List.count_cons, ih, h]

lemma firstMatchLabel_mem_snd {pairs : List (BucketRange × String)} {v : Nat}
    {l : String} (h : firstMatchLabel pairs v = some l) :
    l ∈ pairs.map Prod.snd := by
  induction pairs with
  | nil => simp [firstMatchLabel] at h
  | cons p rest ih =>
      rcases p with ⟨r, l0⟩
      by_cases hr : inRange r v
      · simp [firstMatchLabel, hr] at h
        simp [h]
      · simp [firstMatchLabel, hr] at h
        simpa using Or.inr (ih h)

lemma snd_zip_mem {ranges : List BucketRange} {labels : List String}
    {l : String} (h : l ∈ (ranges.zip labels).map Prod.snd) : l ∈ labels := by
  rcases List.mem_map.mp h with ⟨⟨r, l'⟩, hmem, hl⟩
  cases hl
  exact (List.of_mem_zip hmem).2

lemma sum_bucketMemberCounts (pairs : List (BucketRange × String))
    (labels : List String) (values : List Nat)
    (hnodup : labels.Nodup)
    (hsub : ∀ v l, firstMatchLabel pairs v = some l → l ∈ labels) :
    (labels.map (fun l => bucketMemberCount pairs values l)).sum
      = (values.filter (fun v => (firstMatchLabel pairs v).isSome)).length := by
  induction values with
  | nil => simp [bucketMemberCount]
  | cons v vs ih =>
      have hsplit : ∀ l, bucketMemberCount pairs (v :: vs) l
          = (if firstMatchLabel pairs v = some l then 1 else 0)
            + bucketMemberCount pairs vs l := by
        intro l
        by_cases h : firstMatchLabel pairs v = some l <;>
          simp [bucketMemberCount, List.filter_cons, h]
        all_goals omega
      calc (labels.map (fun l => bucketMemberCount pairs (v :: vs) l)).sum
          = (labels.map (fun l =>
              (if firstMatchLabel pairs v = some l then 1 else 0)
                + bucketMemberCount pairs vs l)).sum := by
            exact congrArg List.sum (List.map_congr_left (fun l _ => hsplit l))
        _ = (labels.map (fun l =>
              if firstMatchLabel pairs v = some l then 1 else 0)).sum
            + (labels.map (fun l => bucketMemberCount pairs vs l)).sum :=
            sum_map_add_nat labels _ _
        _ = ((v :: vs).filter
              (fun u => (firstMatchLabel pairs u).isSome)).length := by
            cases hv : firstMatchLabel pairs v with
            | none =>
                simp only [hv, List.filter_cons]
                have : (labels.map (fun l =>
                    if (none : Option String) = some l then 1 else 0)).sum = 0 := by
                  simp
                simp [this, ih, hv]
            | some l0 =>
                have hcount : (labels.map (fun l =>
                    if (some l0 : Option String) = some l then 1 else 0)).sum
                    = labels.count l0 := by
                  have : (labels.map (fun l =>
                      if (some l0 : Option String) = some l then 1 else 0)).sum
                      = (labels.map (fun l => if l0 = l then 1 else 0)).sum := by
                    apply congrArg List.sum
                    apply List.map_congr_left
                    intro l _
                    by_cases h : l0 = l <;> simp [h]
                  rw [this, sum_map_indicator]
                have hone : labels.count l0 = 1 :=
                  List.count_eq_one_of_mem hnodup (hsub v l0 hv)
                rw [hcount, hone, ih]
                have hfil : ((v :: vs).filter
                    (fun u => (firstMatchLabel pairs u).isSome)).length
                    = (vs.filter
                        (fun u => (firstMatchLabel pairs u).isSome)).length + 1 := by
                  simp [List.filter_cons, hv]
                rw [hfil]
                omega

lemma firstMatchLabel_eq_find (pairs : List (BucketRange × String)) (v : Nat) :
    firstMatchLabel pairs v
      = ((pairs.find? (fun p => inRange p.1 v)).map Prod.snd) := by
  induction pairs with
  | nil => simp [firstMatchLabel]
  | cons p rest ih =>
      by_cases h : inRange p.1 v
      · cases p; simp_all [firstMatchLabel, List.find?, h]
      · cases p
        simp_all [firstMatchLabel, List.find?_cons_of_neg, h]

/-- Ranges of the C3 counterexample, covering only the values 0..5. -/
def cexRanges : List BucketRange := [⟨0, some 0⟩, ⟨1, some 5⟩]

def cexLabels : List String := ["0", "1-5"]

/-- C3 counterexample: `_create_buckets` has no error path — it is a
total function (no `UnbucketableValue` exists anywhere in the
repository) — and on the value `10`, which no range of `cexRanges`
covers, it returns normally with every bucket at count `0`: the
uncovered value is silently dropped and is assigned to no bucket, so
classification neither raises nor assigns every value to a bucket. -/
theorem createBuckets_drops_uncovered_value :
    createBuckets [10] cexRanges cexLabels
      = [⟨"0", 0, 0⟩, ⟨"1-5", 0, 0⟩] ∧
    ((createBuckets [10] cexRanges cexLabels).map Bucket.count).sum = 0 ∧
    ([10] : List Nat).length = 1 := by
  have h : createBuckets [10] cexRanges cexLabels
      = [⟨"0", 0, 0⟩, ⟨"1-5", 0, 0⟩] := by
    norm_num [createBuckets, cexRanges, cexLabels, bucketMemberCount,
      firstMatchLabel, inRange, round2, round_eq, List.filter_cons,
      List.filter_nil]
    simp
    norm_num
  exact ⟨h, by rw [h]; rfl, rfl⟩

/-- C3 amended: a count contained in no bucket range is silently
dropped rather than raising a defined error (the classification
function is total and returns a result for every input); every value
that some range covers is assigned to exactly one bucket — the first
matching range in definition order (`List.find?` order over
`zip(ranges, labels)`) — and the sum of all bucket member counts equals
the number of values covered by at least one range, not the number of
values. -/
theorem createBuckets_first_match (values : List Nat)
    (ranges : List BucketRange) (labels : List String)
    (hnodup : labels.Nodup) :
    ((createBuckets values ranges labels).map Bucket.count).sum
      = (values.filter
          (fun v => (firstMatchLabel (ranges.zip labels) v).isSome)).length
    ∧ ∀ v : Nat, firstMatchLabel (ranges.zip labels) v
        = (((ranges.zip labels).find? (fun p => inRange p.1 v)).map Prod.snd) := by
  constructor
  · have hmap : (createBuckets values ranges labels).map Bucket.count
        = labels.map (fun l => bucketMemberCount (ranges.zip labels) values l) := by
      simp [createBuckets]
    rw [hmap]
    exact sum_bucketMemberCounts (ranges.zip labels) labels values hnodup
      (fun v l h => snd_zip_mem (firstMatchLabel_mem_snd h))
  · exact fun v => firstMatchLabel_eq_find (ranges.zip labels) v

/-- C3 amended, witness: evaluated on the end-to-end distribution
`[2, 0, 9, 0]` of spec section 8 with the spec's example ranges. -/
theorem createBuckets_first_match_witness :
    ((createBuckets [2, 0, 9, 0] [⟨0, some 0⟩, ⟨1, some 5⟩, ⟨6, none⟩]
        ["0", "1-5", "6+"]).map Bucket.count).sum
      = (([2, 0, 9, 0] : List Nat).filter
          (fun v => (firstMatchLabel
            ([⟨0, some 0⟩, ⟨1, some 5⟩, ⟨6, none⟩].zip ["0", "1-5", "6+"])
            v).isSome)).length
    ∧ ∀ v : Nat, firstMatchLabel
          ([⟨0, some 0⟩, ⟨1, some 5⟩, ⟨6, none⟩].zip ["0", "1-5", "6+"]) v
        = ((([(⟨0, some 0⟩ : BucketRange), ⟨1, some 5⟩, ⟨6, none⟩].zip
            ["0", "1-5", "6+"]).find? (fun p => inRange p.1 v)).map Prod.snd) :=
  createBuckets_first_match [2, 0, 9, 0]
    [⟨0, some 0⟩, ⟨1, some 5⟩, ⟨6, none⟩] ["0", "1-5", "6+"] (by decide)

/-- Raw-count mapping of the end-to-end scenario of spec section 8:
owner keys `[1,2,3,4]`, `raw_counts = {1: 2, 3: 9}`. -/
def rawScenario : Int → Option Nat := fun k =>
  if k = 1 then some 2 else if k = 3 then some 9 else none

/-- C4: in the profiling pipeline (per-key count list built over the
owner keys, then bucketed), every emitted bucket's percentage is its
member count times 100 divided by the number of owner keys — the
distribution's full length, zero-count keys included — rounded at two
decimals, and is 0 when there are no keys; the denominator is the key
count no matter which or how many values fell into buckets. -/
theorem createBuckets_percentage_denominator (keys : List Int)
    (raw : Int → Option Nat) (ranges : List BucketRange)
    (labels : List String) :
    ∀ b ∈ createBuckets (buildCounts keys raw) ranges labels,
      b.percentage =
        if 0 < keys.length then
          round2 ((b.count : ℚ) * 100 / (keys.length : ℚ))
        else 0 := by
  intro b hb
  rcases List.mem_map.mp hb with ⟨l, _, rfl⟩
  have hlen : (buildCounts keys raw).length = keys.length := by
    simp [buildCounts]
  simp only [hlen]

/-- C4 witness: the end-to-end scenario of spec section 8 — keys
`[1,2,3,4]`, counts `[2,0,9,0]`, bucket `"0"` holding 2 members at
50 percent of the 4 keys. -/
theorem createBuckets_percentage_denominator_witness :
    (⟨"0", 2, 50⟩ : Bucket).percentage =
      if 0 < ([1, 2, 3, 4] : List Int).length then
        round2 (((⟨"0", 2, 50⟩ : Bucket).count : ℚ) * 100
          / (([1, 2, 3, 4] : List Int).length : ℚ))
      else 0 :=
  createBuckets_percentage_denominator [1, 2, 3, 4] rawScenario
    [⟨0, some 0⟩, ⟨1, some 5⟩, ⟨6, none⟩] ["0", "1-5", "6+"]
    ⟨"0", 2, 50⟩ (by
      have hv : buildCounts [1, 2, 3, 4] rawScenario = [2, 0, 9, 0] := by
        simp [buildCounts, rawScenario]
      rw [hv]
      have he : createBuckets [2, 0, 9, 0]
          [⟨0, some 0⟩, ⟨1, some 5⟩, ⟨6, none⟩] ["0", "1-5", "6+"]
          = [⟨"0", 2, 50⟩, ⟨"1-5", 1, 25⟩, ⟨"6+", 1, 25⟩] := by
        norm_num [createBuckets, bucketMemberCount, firstMatchLabel, inRange,
          round2, round_eq, List.filter_cons, List.filter_nil]
        simp
        norm_num
      rw [he]
      simp)

/-! ### Fixed bucket specifications used by the program

The literal `ranges`/`labels` arguments of the three `_create_buckets`
call sites in `sample_account_analyzer.py` (lines 161-165, 217-221,
289-293). -/

def personBucketRanges : List BucketRange :=
  [⟨0, some 0⟩, ⟨1, some 5⟩, ⟨6, some 10⟩, ⟨11, some 20⟩, ⟨21, some 50⟩,
   ⟨51, some 100⟩, ⟨101, some 500⟩, ⟨501, none⟩]

def personBucketLabels : List String :=
  ["0", "1-5", "6-10", "11-20", "21-50", "51-100", "101-500", "500+"]

def activityBucketRanges : List BucketRange :=
  [⟨0, some 0⟩, ⟨1, some 10⟩, ⟨11, some 50⟩, ⟨51, some 100⟩, ⟨101, some 500⟩,
   ⟨501, some 1000⟩, ⟨1001, some 5000⟩, ⟨5001, none⟩]

def activityBucketLabels : List String :=
  ["0", "1-10", "11-50", "51-100", "101-500", "501-1000", "1001-5000", "5000+"]

def personActivityBucketRanges : List BucketRange :=
  [⟨0, some 0⟩, ⟨1, some 10⟩, ⟨11, some 50⟩, ⟨51, some 100⟩, ⟨101, some 500⟩,
   ⟨501, some 1000⟩, ⟨1001, none⟩]

def personActivityBucketLabels : List String :=
  ["0", "1-10", "11-50", "51-100", "101-500", "501-1000", "1000+"]

/-! ### SQL-side bucketing

Embeds the `bucket_query` of
`data_relationship_analyzer.analyze_account_person_relationship`
(lines 157-210).  Its `person_counts` CTE left-joins `account_base`
with `person_norm`, yielding one `person_count` per account (0 for
accounts with no persons) — modelled as the input list `counts`, whose
length is `total_cnt` (`COUNT(*) FROM account_base`).  The `CASE`
expressions map each count to a `(range_id, person_range)` pair, and

    SELECT person_range, COUNT(*) as account_count,
           ROUND(COUNT(*) * 100.0 / (SELECT total_cnt FROM total_accounts), 2)
    ... GROUP BY range_id, person_range ORDER BY range_id

emits one row per `range_id` that has at least one member, in
ascending `range_id` order; `range_id`s with no members produce no
group and hence no row.  MySQL `ROUND(x, 2)` rounds half away from
zero, which on these non-negative values is `round2`. -/

def personRangeId (c : Nat) : Nat :=
  if c = 0 then 1 else if c ≤ 5 then 2 else if c ≤ 10 then 3
  else if c ≤ 20 then 4 else if c ≤ 50 then 5 else if c ≤ 100 then 6
  else if c ≤ 500 then 7 else 8

def personRangeLabel (c : Nat) : String :=
  if c = 0 then "0" else if c ≤ 5 then "1-5" else if c ≤ 10 then "6-10"
  else if c ≤ 20 then "11-20" else if c ≤ 50 then "21-50"
  else if c ≤ 100 then "51-100" else if c ≤ 500 then "101-500" else "500+"

def labelOfRangeId (rid : Nat) : String :=
  if rid = 1 then "0" else if rid = 2 then "1-5" else if rid = 3 then "6-10"
  else if rid = 4 then "11-20" else if rid = 5 then "21-50"
  else if rid = 6 then "51-100" else if rid = 7 then "101-500" else "500+"

/-- The two CASE expressions of the query are aligned: every member of
a `range_id` group carries that group's single label. -/
lemma personRangeLabel_eq (c : Nat) :
    personRangeLabel c = labelOfRangeId (personRangeId c) := by
  by_cases h0 : c = 0
  · simp [personRangeLabel, personRangeId, labelOfRangeId, h0]
  · by_cases h5 : c ≤ 5
    · simp [personRangeLabel, personRangeId, labelOfRangeId, h0, h5]
    · by_cases h10 : c ≤ 10
      · simp [personRangeLabel, personRangeId, labelOfRangeId, h0, h5, h10]
      · by_cases h20 : c ≤ 20
        · simp [personRangeLabel, personRangeId, labelOfRangeId, h0, h5, h10,
            h20]
        · by_cases h50 : c ≤ 50
          · simp [personRangeLabel, personRangeId, labelOfRangeId, h0, h5,
              h10, h20, h50]
          · by_cases h100 : c ≤ 100
            · simp [personRangeLabel, personRangeId, labelOfRangeId, h0, h5,
                h10, h20, h50, h100]
            · by_cases h500 : c ≤ 500
              · simp [personRangeLabel, personRangeId, labelOfRangeId, h0,
                  h5, h10, h20, h50, h100, h500]
              · simp [personRangeLabel, personRangeId, labelOfRangeId, h0,
                  h5, h10, h20, h50, h100, h500]

structure SqlBucketRow where
  range : String
  account_count : Nat
  percentage : ℚ
deriving DecidableEq, Repr

def sqlPersonBuckets (counts : List Nat) : List SqlBucketRow :=
  [1, 2, 3, 4, 5, 6, 7, 8].filterMap (fun rid =>
    let members := counts.filter (fun c => decide (personRangeId c = rid))
    if members.length = 0 then none
    else some
      { range := labelOfRangeId rid
        account_count := members.length
        percentage :=
          round2 ((members.length : ℚ) * 100 / (counts.length : ℚ)) })

/-- C6 counterexample: for the single-account population with zero
persons, the SQL bucket query of
`data_relationship_analyzer.analyze_account_person_relationship` emits
only the `"0"` row — the seven other labels of the specification,
e.g. `"1-5"`, are absent rather than emitted with count 0, so the
bucket result does not contain one entry per label. -/
theorem sqlPersonBuckets_omits_empty_labels :
    sqlPersonBuckets [0] = [⟨"0", 1, 100⟩] ∧
    (sqlPersonBuckets [0]).length = 1 ∧
    personBucketLabels.length = 8 ∧
    ¬ "1-5" ∈ (sqlPersonBuckets [0]).map SqlBucketRow.range := by
  have h : sqlPersonBuckets [0] = [⟨"0", 1, 100⟩] := by
    simp only [sqlPersonBuckets, List.filterMap_cons, List.filterMap_nil,
      List.filter_cons, List.filter_nil]
    norm_num [personRangeId, labelOfRangeId, round2, round_eq]
  refine ⟨h, by rw [h]; rfl, rfl, by rw [h]; simp⟩

/-- C6 amended: the Python `_create_buckets` result contains one entry
per label of the specification, in the specification's label order
regardless of the order or contents of the population, and labels with
zero members are still emitted (with member count 0); the SQL-side
bucket query of `data_relationship_analyzer`, by contrast, emits a row
only for labels with at least one member. -/
theorem buckets_label_order :
    (∀ (values : List Nat) (ranges : List BucketRange) (labels : List String),
      (createBuckets values ranges labels).map Bucket.range = labels ∧
      ∀ l ∈ labels, ∃ b ∈ createBuckets values ranges labels,
        b.range = l ∧ b.count = bucketMemberCount (ranges.zip labels) values l) ∧
    ∀ counts : List Nat, ∀ row ∈ sqlPersonBuckets counts,
      0 < row.account_count := by
  constructor
  · intro values ranges labels
    constructor
    · simp [createBuckets, List.map_map]
      exact List.map_id _
    · intro l hl
      exact ⟨_, List.mem_map.mpr ⟨l, hl, rfl⟩, rfl, rfl⟩
  · intro counts row hrow
    rcases List.mem_filterMap.mp hrow with ⟨rid, _, hf⟩
    by_cases hz : (counts.filter (fun c => decide (personRangeId c = rid))).length = 0
    · simp [hz] at hf
    · simp only [hz, if_neg hz, ite_false] at hf
      cases hf
      exact Nat.pos_of_ne_zero hz

/-- C6 amended, witness: the Python side instantiated on the scenario
distribution and the SQL side on the row emitted for `counts = [0]`. -/
theorem buckets_label_order_witness :
    ((createBuckets [2, 0, 9, 0] personBucketRanges personBucketLabels).map
      Bucket.range = personBucketLabels) ∧
    0 < (⟨"0", 1, 100⟩ : SqlBucketRow).account_count :=
  ⟨(buckets_label_order.1 [2, 0, 9, 0] personBucketRanges personBucketLabels).1,
    buckets_label_order.2 [0] ⟨"0", 1, 100⟩ (by
      have h : sqlPersonBuckets [0] = [⟨"0", 1, 100⟩] := by
        simp only [sqlPersonBuckets, List.filterMap_cons, List.filterMap_nil,
          List.filter_cons, List.filter_nil]
        norm_num [personRangeId, labelOfRangeId, round2, round_eq]
      rw [h]
      simp)⟩

/-! ### Percentage-sum tolerance over the fixed bucket specifications -/

lemma abs_round2_sub (q : ℚ) : |round2 q - q| ≤ 1 / 200 := by
  have h : |(round (q * 100) : ℚ) - q * 100| ≤ 1 / 2 := by
    rw [abs_sub_comm]
    exact abs_sub_round (q * 100)
  have heq : round2 q - q = ((round (q * 100) : ℚ) - q * 100) / 100 := by
    unfold round2; ring
  rw [heq, abs_div]
  have h100 : |(100 : ℚ)| = 100 := by norm_num
  rw [h100]
  linarith

lemma list_sum_abs_diff_le {α : Type} (L : List α) (f g : α → ℚ) (ε : ℚ)
    (h : ∀ a ∈ L, |f a - g a| ≤ ε) :
    |(L.map f).sum - (L.map g).sum| ≤ (L.length : ℚ) * ε := by
  induction L with
  | nil => simp
  | cons a as ih =>
      simp only [List.map_cons, List.sum_cons, List.length_cons]
      have h1 : |f a - g a| ≤ ε := h a (by simp)
      have h2 : |(as.map f).sum - (as.map g).sum| ≤ (as.length : ℚ) * ε :=
        ih (fun b hb => h b (by simp [hb]))
      have h3 : |f a + (as.map f).sum - (g a + (as.map g).sum)|
          ≤ |f a - g a| + |(as.map f).sum - (as.map g).sum| := by
        have := abs_add (f a - g a) ((as.map f).sum - (as.map g).sum)
        calc |f a + (as.map f).sum - (g a + (as.map g).sum)|
            = |(f a - g a) + ((as.map f).sum - (as.map g).sum)| := by ring_nf
          _ ≤ _ := this
      calc |f a + (as.map f).sum - (g a + (as.map g).sum)|
          ≤ |f a - g a| + |(as.map f).sum - (as.map g).sum| := h3
        _ ≤ ε + (as.length : ℚ) * ε := add_le_add h1 h2
        _ = ((as.length + 1 : ℕ) : ℚ) * ε := by push_cast; ring

lemma sum_map_scale {α : Type} (L : List α) (f : α → ℚ) (d : ℚ) :
    (L.map (fun a => f a * 100 / d)).sum = (L.map f).sum * 100 / d := by
  induction L with
  | nil => simp
  | cons a as ih => simp [ih, add_mul, add_div]

lemma sum_map_natCast {α : Type} (L : List α) (f : α → Nat) :
    (L.map (fun a => ((f a : Nat) : ℚ))).sum = (((L.map f).sum : Nat) : ℚ) := by
  induction L with
  | nil => simp
  | cons a as ih => push_cast; simp [ih]

lemma bucket_percentages_sum_near_100 (ranges : List BucketRange)
    (labels : List String) (hnodup : labels.Nodup)
    (hex : ∀ v : Nat, (firstMatchLabel (ranges.zip labels) v).isSome)
    (hlen : labels.length ≤ 20)
    (values : List Nat) (hv : values ≠ []) :
    |((createBuckets values ranges labels).map Bucket.percentage).sum - 100|
      ≤ 1 / 10 := by
  have hN : 0 < values.length := List.length_pos.mpr hv
  have hNne : ((values.length : ℕ) : ℚ) ≠ 0 := by
    exact_mod_cast Nat.pos_iff_ne_zero.mp hN
  have hmap : (createBuckets values ranges labels).map Bucket.percentage
      = labels.map (fun l =>
          round2 ((bucketMemberCount (ranges.zip labels) values l : ℚ)
            * 100 / (values.length : ℚ))) := by
    simp only [createBuckets, List.map_map]
    apply List.map_congr_left
    intro l _
    simp [hN]
  have hsum_cnt : (labels.map
      (fun l => bucketMemberCount (ranges.zip labels) values l)).sum
      = values.length := by
    rw [sum_bucketMemberCounts (ranges.zip labels) labels values hnodup
      (fun v l h => snd_zip_mem (firstMatchLabel_mem_snd h))]
    have hfil : values.filter
        (fun v => (firstMatchLabel (ranges.zip labels) v).isSome) = values :=
      List.filter_eq_self.mpr (fun v _ => hex v)
    rw [hfil]
  have hsum_g : (labels.map (fun l =>
      ((bucketMemberCount (ranges.zip labels) values l : ℕ) : ℚ)
        * 100 / (values.length : ℚ))).sum = 100 := by
    rw [sum_map_scale labels
      (fun l => ((bucketMemberCount (ranges.zip labels) values l : ℕ) : ℚ))
      ((values.length : ℕ) : ℚ)]
    rw [sum_map_natCast labels
      (fun l => bucketMemberCount (ranges.zip labels) values l)]
    rw [hsum_cnt]
    field_simp
  have hdiff := list_sum_abs_diff_le labels
    (fun l => round2 ((bucketMemberCount (ranges.zip labels) values l : ℚ)
      * 100 / (values.length : ℚ)))
    (fun l => ((bucketMemberCount (ranges.zip labels) values l : ℕ) : ℚ)
      * 100 / (values.length : ℚ))
    (1 / 200) (fun l _ => abs_round2_sub _)
  rw [hmap]
  have hshift : (labels.map (fun l =>
        round2 ((bucketMemberCount (ranges.zip labels) values l : ℚ)
          * 100 / (values.length : ℚ)))).sum - 100
      = (labels.map (fun l =>
          round2 ((bucketMemberCount (ranges.zip labels) values l : ℚ)
            * 100 / (values.length : ℚ)))).sum
        - (labels.map (fun l =>
            ((bucketMemberCount (ranges.zip labels) values l : ℕ) : ℚ)
              * 100 / (values.length : ℚ))).sum := by
    rw [hsum_g]
  rw [hshift]
  calc |(labels.map (fun l =>
        round2 ((bucketMemberCount (ranges.zip labels) values l : ℚ)
          * 100 / (values.length : ℚ)))).sum
      - (labels.map (fun l =>
        ((bucketMemberCount (ranges.zip labels) values l : ℕ) : ℚ)
          * 100 / (values.length : ℚ))).sum|
      ≤ (labels.length : ℚ) * (1 / 200) := hdiff
    _ ≤ (20 : ℚ) * (1 / 200) := by
        have : ((labels.length : ℕ) : ℚ) ≤ 20 := by exact_mod_cast hlen
        nlinarith
    _ = 1 / 10 := by norm_num

lemma personBuckets_exhaustive : ∀ v : Nat,
    (firstMatchLabel (personBucketRanges.zip personBucketLabels) v).isSome := by
  intro v
  have hz : personBucketRanges.zip personBucketLabels
      = [(⟨0, some 0⟩, "0"), (⟨1, some 5⟩, "1-5"), (⟨6, some 10⟩, "6-10"),
         (⟨11, some 20⟩, "11-20"), (⟨21, some 50⟩, "21-50"),
         (⟨51, some 100⟩, "51-100"), (⟨101, some 500⟩, "101-500"),
         (⟨501, none⟩, "500+")] := rfl
  rw [hz]
  simp only [firstMatchLabel, inRange, Bool.and_eq_true, decide_eq_true_eq]
  split_ifs <;> simp_all
  all_goals omega

lemma activityBuckets_exhaustive : ∀ v : Nat,
    (firstMatchLabel (activityBucketRanges.zip activityBucketLabels) v).isSome := by
  intro v
  have hz : activityBucketRanges.zip activityBucketLabels
      = [(⟨0, some 0⟩, "0"), (⟨1, some 10⟩, "1-10"), (⟨11, some 50⟩, "11-50"),
         (⟨51, some 100⟩, "51-100"), (⟨101, some 500⟩, "101-500"),
         (⟨501, some 1000⟩, "501-1000"), (⟨1001, some 5000⟩, "1001-5000"),
         (⟨5001, none⟩, "5000+")] := rfl
  rw [hz]
  simp only [firstMatchLabel, inRange, Bool.and_eq_true, decide_eq_true_eq]
  split_ifs <;> simp_all
  all_goals omega

lemma personActivityBuckets_exhaustive : ∀ v : Nat,
    (firstMatchLabel
      (personActivityBucketRanges.zip personActivityBucketLabels) v).isSome := by
  intro v
  have hz : personActivityBucketRanges.zip personActivityBucketLabels
      = [(⟨0, some 0⟩, "0"), (⟨1, some 10⟩, "1-10"), (⟨11, some 50⟩, "11-50"),
         (⟨51, some 100⟩, "51-100"), (⟨101, some 500⟩, "101-500"),
         (⟨501, some 1000⟩, "501-1000"), (⟨1001, none⟩, "1000+")] := rfl
  rw [hz]
  simp only [firstMatchLabel, inRange, Bool.and_eq_true, decide_eq_true_eq]
  split_ifs <;> simp_all
  all_goals omega

/-- C7: for every non-empty count distribution bucketed against any of
the three fixed bucket specifications used by the program (person,
account-activity and person-activity buckets), the rounded per-bucket
percentages sum to 100 within a tolerance of 1/10: each of the at most
8 labels contributes a rounding error of at most 1/200 to an exact sum
of 100. -/
theorem fixed_bucket_percentages_sum_to_100 (values : List Nat)
    (hv : values ≠ []) :
    |((createBuckets values personBucketRanges personBucketLabels).map
        Bucket.percentage).sum - 100| ≤ 1 / 10 ∧
    |((createBuckets values activityBucketRanges activityBucketLabels).map
        Bucket.percentage).sum - 100| ≤ 1 / 10 ∧
    |((createBuckets values personActivityBucketRanges
        personActivityBucketLabels).map Bucket.percentage).sum - 100|
      ≤ 1 / 10 :=
  ⟨bucket_percentages_sum_near_100 personBucketRanges personBucketLabels
      (by decide) personBuckets_exhaustive (by decide) values hv,
   bucket_percentages_sum_near_100 activityBucketRanges activityBucketLabels
      (by decide) activityBuckets_exhaustive (by decide) values hv,
   bucket_percentages_sum_near_100 personActivityBucketRanges
      personActivityBucketLabels (by decide) personActivityBuckets_exhaustive
      (by decide) values hv⟩

/-- C7 witness: the tolerance bound instantiated at the one-element
distribution `[0]`. -/
theorem fixed_bucket_percentages_sum_to_100_witness :
    |((createBuckets [0] personBucketRanges personBucketLabels).map
        Bucket.percentage).sum - 100| ≤ 1 / 10 ∧
    |((createBuckets [0] activityBucketRanges activityBucketLabels).map
        Bucket.percentage).sum - 100| ≤ 1 / 10 ∧
    |((createBuckets [0] personActivityBucketRanges
        personActivityBucketLabels).map Bucket.percentage).sum - 100|
      ≤ 1 / 10 :=
  fixed_bucket_percentages_sum_to_100 [0] (by simp)

/-! ### Standard deviation

Embeds `sample_account_analyzer._calculate_std` (lines 386-395):

    if not values or len(values) < 2:
        return 0.0
    mean = sum(values) / len(values)
    variance = sum((x - mean) ** 2 for x in values) / len(values)
    return variance ** 0.5

The input floats are modelled as rationals; `** 0.5` on the
non-negative variance is the real square root. -/

def listMean (l : List ℚ) : ℚ :=
  l.sum / (l.length : ℚ)

def calcVariance (l : List ℚ) : ℚ :=
  (l.map (fun x => (x - listMean l) ^ 2)).sum / (l.length : ℚ)

noncomputable def calcStd (l : List ℚ) : ℝ :=
  if l.length < 2 then 0 else Real.sqrt ((calcVariance l : ℚ) : ℝ)

lemma calcVariance_nonneg (l : List ℚ) : 0 ≤ calcVariance l := by
  unfold calcVariance
  apply div_nonneg
  · apply List.sum_nonneg
    intro x hx
    rcases List.mem_map.mp hx with ⟨y, _, rfl⟩
    exact sq_nonneg _
  · exact Nat.cast_nonneg _

/-- C8: the standard deviation is the population standard deviation —
its square is `mean((x - mean)^2)`, the squared-deviation sum divided
by N, not N-1 — and it is 0 whenever the distribution has fewer than 2
elements; on `[0, 2]` it is 1 (the sample formula would give √2). -/
theorem calcStd_population (l : List ℚ) :
    (l.length < 2 → calcStd l = 0) ∧
    (2 ≤ l.length →
      (calcStd l) ^ 2
        = (((l.map (fun x => (x - l.sum / (l.length : ℚ)) ^ 2)).sum
            / (l.length : ℚ) : ℚ) : ℝ)) ∧
    calcStd [0, 2] = 1 := by
  refine ⟨?_, ?_, ?_⟩
  · intro h
    simp [calcStd, h]
  · intro h
    have hnlt : ¬ l.length < 2 := Nat.not_lt.mpr h
    simp only [calcStd, hnlt, if_false]
    rw [Real.sq_sqrt (by exact_mod_cast calcVariance_nonneg l)]
    unfold calcVariance listMean
    norm_cast
  · have h2 : calcVariance [0, 2] = 1 := by
      norm_num [calcVariance, listMean]
    simp [calcStd, h2]

/-- C8 witness: the degenerate case at the one-element list `[5]` and
the population formula evaluated on `[0, 2]`. -/
theorem calcStd_population_witness :
    calcStd [(5 : ℚ)] = 0 ∧
    (calcStd [(0 : ℚ), 2]) ^ 2
      = ((([(0 : ℚ), 2].map
          (fun x => (x - [(0 : ℚ), 2].sum / (([(0 : ℚ), 2].length : ℕ) : ℚ))
            ^ 2)).sum / (([(0 : ℚ), 2].length : ℕ) : ℚ) : ℚ) : ℝ) :=
  ⟨(calcStd_population [(5 : ℚ)]).1 (by simp),
   (calcStd_population [(0 : ℚ), 2]).2.1 (by simp)⟩

/-! ### Construction of the analyzers

Embeds `SampleAccountAnalyzer.__init__` (lines 26-48 of
`sample_account_analyzer.py`) and the large-table configuration of
`ProductionDataProfiler.__init__` (lines 54-61 of
`production_data_profiler.py`).  Both constructors copy the configured
sampling rate into the object with no validation and no failure path
(neither `InvalidPolicy` nor any other typed error exists in the
repository), so both embeddings are total functions.  `config.get`
defaults are resolved by the caller of these models. -/

structure AnalyzerConfig where
  sample_size : Nat
  activity_time_range_days : Nat
  activity_sample_rate : ℚ
  account_ids : List Int

structure SampleAccountAnalyzer where
  sample_size : Nat
  activity_time_range_days : Nat
  activity_sample_rate : ℚ
  account_ids : List Int
  sampling_method : String

def analyzerInit (cfg : AnalyzerConfig) : SampleAccountAnalyzer :=
  { sample_size := cfg.sample_size
    activity_time_range_days := cfg.activity_time_range_days
    activity_sample_rate := cfg.activity_sample_rate
    account_ids := cfg.account_ids
    sampling_method :=
      if cfg.account_ids ≠ [] then "specified_ids" else "random_sample" }

structure LargeTableConfig where
  sample_rate : ℚ
  time_range_days : Nat

def profilerInit (activity_sample_rate : ℚ)
    (activity_time_range_days : Nat) : LargeTableConfig :=
  { sample_rate := activity_sample_rate
    time_range_days := activity_time_range_days }

/-- Python float division `1.0 / rate` as used in the activity query
builders: a `ZeroDivisionError` on rate 0 is modelled as `none`. -/
def invRateOf (rate : ℚ) : Option ℚ :=
  if rate = 0 then none else some (1 / rate)

/-- C5 counterexample: constructing the analyzer (and the profiler's
large-table configuration) with `activity_sample_rate = 0` succeeds —
`__init__` performs no validation and no `InvalidPolicy` exists in the
repository; the zero rate is stored as given, and a failure occurs only
later, when an analysis step evaluates `1.0/self.activity_sample_rate`
to build the sampled activity query. -/
theorem analyzerInit_accepts_zero_rate :
    (analyzerInit ⟨50, 90, 0, []⟩).activity_sample_rate = 0 ∧
    (profilerInit 0 90).sample_rate = 0 ∧
    invRateOf 0 = none :=
  ⟨rfl, rfl, rfl⟩

/-- C5 amended: construction never fails and never validates — any
configured rate, including 0 and rates outside (0, 1], is stored
unchanged in the analyzer state and in the profiler's large-table
configuration; a zero rate causes a failure only at analysis time,
when `1.0/rate` is evaluated, so no statistics are computed from it. -/
theorem analyzerInit_stores_rate (cfg : AnalyzerConfig)
    (_h : cfg.activity_sample_rate ≤ 0 ∨ 1 < cfg.activity_sample_rate) :
    (analyzerInit cfg).activity_sample_rate = cfg.activity_sample_rate ∧
    (profilerInit cfg.activity_sample_rate
      cfg.activity_time_range_days).sample_rate = cfg.activity_sample_rate ∧
    (cfg.activity_sample_rate = 0 →
      invRateOf cfg.activity_sample_rate = none) :=
  ⟨rfl, rfl, fun hz => by simp [invRateOf, hz]⟩

/-- C5 amended, witness: instantiated at a configuration whose rate
is 0. -/
theorem analyzerInit_stores_rate_witness :
    (analyzerInit ⟨50, 90, 0, []⟩).activity_sample_rate = (0 : ℚ) ∧
    (profilerInit (0 : ℚ) 90).sample_rate = (0 : ℚ) ∧
    ((0 : ℚ) = 0 → invRateOf 0 = none) :=
  analyzerInit_stores_rate ⟨50, 90, 0, []⟩ (Or.inl (by norm_num))

/-! ### Per-relationship failure handling

`execute_query` (lines 71-80 of `sample_account_analyzer.py`, 64-72 of
`data_relationship_analyzer.py`, 85-94 of
`production_data_profiler.py`) catches any exception, prints it and
returns `[]`; every `analyze_*_relationship` then guards its block with
`if result:` and adds nothing to `self.results['relationships']` when
the query failed, and `analyze_all_tables` (lines 442-451) catches a
per-table exception and `continue`s.  The per-relationship run loop is
modelled with the collaborator as `results : String → Option ℚ`
(`none` = the relationship's query failed): a failed relationship
contributes no entry. -/

def runRelationships (results : String → Option ℚ)
    (names : List String) : List (String × ℚ) :=
  names.foldl (fun acc n =>
    match results n with
    | none => acc
    | some s => acc ++ [(n, s)]) []

lemma runRelationships_go (results : String → Option ℚ)
    (names : List String) (acc : List (String × ℚ)) :
    names.foldl (fun acc n =>
      match results n with
      | none => acc
      | some s => acc ++ [(n, s)]) acc
      = acc ++ names.filterMap (fun n => (results n).map (fun s => (n, s))) := by
  induction names generalizing acc with
  | nil => simp
  | cons n ns ih =>
      cases h : results n with
      | none => simp [List.foldl_cons, h, ih]
      | some s => simp [List.foldl_cons, h, ih]

/-- Collaborator outcome of the C9 counterexample: the
`account_person` analysis fails, the later `account_activity` analysis
succeeds. -/
def failingResults : String → Option ℚ := fun n =>
  if n = "account_person" then none else some 1

/-- C9 counterexample: when the `account_person` relationship fails,
the aggregate report holds only the succeeding `account_activity`
entry — the failed relationship's key is merely absent, with no
"failed" marker of any kind recorded for it. -/
theorem failed_relationship_merely_absent :
    runRelationships failingResults ["account_person", "account_activity"]
      = [("account_activity", 1)] ∧
    ¬ "account_person" ∈ (runRelationships failingResults
        ["account_person", "account_activity"]).map Prod.fst := by
  have h : runRelationships failingResults
      ["account_person", "account_activity"] = [("account_activity", 1)] := by
    simp [runRelationships, failingResults]
  refine ⟨h, by rw [h]; simp⟩

/-- C9 amended: a per-relationship failure is caught and the remaining
relationships are still analyzed with their results uncorrupted — the
report is exactly the successful analyses, in order — but no "failed"
marker is recorded: a failed relationship's key is absent from the
report. -/
theorem runRelationships_skips_failures (results : String → Option ℚ)
    (names : List String) :
    runRelationships results names
      = names.filterMap (fun n => (results n).map (fun s => (n, s))) ∧
    ∀ n ∈ names, results n = none →
      ¬ n ∈ (runRelationships results names).map Prod.fst := by
  have hchar := runRelationships_go results names []
  refine ⟨by simpa [runRelationships] using hchar, ?_⟩
  intro n hn hnone hmem
  rw [show runRelationships results names
    = names.filterMap (fun n => (results n).map (fun s => (n, s))) from by
      simpa [runRelationships] using hchar] at hmem
  rcases List.mem_map.mp hmem with ⟨p, hp, hfst⟩
  rcases List.mem_filterMap.mp hp with ⟨m, _, hm⟩
  cases hr : results m with
  | none => rw [hr] at hm; simp at hm
  | some s =>
      rw [hr] at hm
      rw [show Option.map (fun s => (m, s)) (some s) = some (m, s) from rfl]
        at hm
      cases hm
      have hmn : m = n := hfst
      rw [hmn] at hr
      rw [hr] at hnone
      exact Option.noConfusion hnone

/-- C9 amended, witness: instantiated at the failing-collaborator
scenario. -/
theorem runRelationships_skips_failures_witness :
    ¬ "account_person" ∈ (runRelationships failingResults
        ["account_person", "account_activity"]).map Prod.fst :=
  (runRelationships_skips_failures failingResults
    ["account_person", "account_activity"]).2 "account_person"
    (by simp) rfl

/-! ### Sample-account-id selection

Embeds `get_sample_account_ids` (lines 82-118 of
`sample_account_analyzer.py`):

    if self.account_ids:
        return self.account_ids
    ... random sampling via COUNT(*) and RAND() ...

The random-sampling branch (row-count estimate, sampling probability,
`RAND()` query limited to `sample_size`) lives in the database and is
abstracted as the external sampler `randomSample` applied to the
configured `sample_size`. -/

def getSampleAccountIds (an : SampleAccountAnalyzer)
    (randomSample : Nat → List Int) : List Int :=
  if an.account_ids ≠ [] then an.account_ids else randomSample an.sample_size

/-- C10: when a non-empty account id list is configured, selection
returns exactly that list — unchanged and in the given order, with no
truncation, deduplication or existence check, for every configured
`sample_size` and every behaviour of the random sampler — and the
random sampler is consulted only when the configured list is empty. -/
theorem getSampleAccountIds_spec (ids : List Int) (n days : Nat) (rate : ℚ)
    (randomSample : Nat → List Int) :
    (ids ≠ [] →
      getSampleAccountIds (analyzerInit ⟨n, days, rate, ids⟩) randomSample
        = ids) ∧
    (ids = [] →
      getSampleAccountIds (analyzerInit ⟨n, days, rate, ids⟩) randomSample
        = randomSample n) := by
  constructor <;> intro h <;> simp [getSampleAccountIds, analyzerInit, h]

/-- C10 witness: the configured list `[3, 1, 3]` (with a duplicate and
more entries than could survive a truncation to a `sample_size` of 2)
is returned verbatim. -/
theorem getSampleAccountIds_spec_witness :
    getSampleAccountIds (analyzerInit ⟨2, 90, 1 / 100, [3, 1, 3]⟩)
      (fun _ => [7]) = [3, 1, 3] :=
  (getSampleAccountIds_spec [3, 1, 3] 2 90 (1 / 100) (fun _ => [7])).1
    (by simp)

end AnalysisDb
